import Mathlib

/-!
Verification development for the `buddies` crate (`src/src/lib.rs`), a buddy
allocator over a bit region of `2^num` bits partitioned into per-level
sub-bitmaps.

The bit region is modelled as a `List Bool` whose index `k` is bit `k` of the
`BitSlice` the code builds over the raw `bits` pointer.  All panics of the
Rust code (failed `assert!`s and out-of-bounds `BitSlice` indexing/slicing)
are modelled as `Except.error` with a `Panic` value naming the panic site.
Machine `usize` arithmetic is modelled on `Nat`: `x << k` is `x * 2 ^ k`,
`x >> k` is `x / 2 ^ k`, `x ^ 1` is `x ^^^ 1` (the claims only concern small
level counts, far from `usize` overflow).  The `data` region is opaque to the
allocator (it never reads `T` values), so `allocate` is modelled as returning
the block index together with the updated bit region; the returned pointer
`data.add(pos << n)` is determined by the index as the element range
`[pos * 2^n, (pos+1) * 2^n)`.
-/

namespace Buddies

/-- The panic sites of `RawBuddies`:
`sizeOutOfRange` is `assert!(n < self.num)`;
`indexOutOfRange` is `assert!(pos < (1usize << (self.num - n - 1)))` in `free`;
`doubleFree` is `assert!(self.buddymap_ref(n)[pos])` in `free`;
`netAssert` is `assert!(i < (1 << n))` in `set_network`;
`sliceOOB` is an out-of-bounds `BitSlice` index or slice. -/
inductive Panic where
  | sizeOutOfRange
  | indexOutOfRange
  | doubleFree
  | netAssert
  | sliceOOB
  deriving DecidableEq

/-- Start of the level-`n` sub-bitmap inside the bit region
(`buddymap_ref`: lower bound `(1usize << self.num) - (1usize << (self.num - n))`). -/
def bmStart (num n : Nat) : Nat := 2 ^ num - 2 ^ (num - n)

/-- Length of the level-`n` sub-bitmap (`buddymap_ref`: the slice upper bound is
`(1usize << self.num) - (1usize << (self.num - n - 1))`, so the length is
`2^(num-n-1)`). -/
def bmLen (num n : Nat) : Nat := 2 ^ (num - n - 1)

/-- Absolute bit-region index of the level-`b`, position-`j` bit. -/
def bitIdx (num b j : Nat) : Nat := bmStart num b + j

/-- `buddymap_ref(n)`: the slice
`bits[(1 << num) - (1 << (num-n)) .. (1 << num) - (1 << (num-n-1))]`
of the bit region. -/
def buddymap (num n : Nat) (bits : List Bool) : List Bool :=
  (bits.drop (bmStart num n)).take (bmLen num n)

/-- The level-`b`, position-`j` bit, read through the bit-region layout. -/
def getBit (num b j : Nat) (bits : List Bool) : Bool :=
  bits.getD (bitIdx num b j) false

/-- `set_all(v)` on `count` bits starting at absolute bit-region index
`start`. -/
def setRange (bits : List Bool) (start : Nat) : Nat → Bool → List Bool
  | 0, _ => bits
  | count + 1, v => setRange (bits.set start v) (start + 1) count v

/-- `self.buddymap_mut(b)[lo .. hi].set_all(v)`: the bounds-checked slice
write of the lower-network loop; slicing a `BitSlice` out of range panics. -/
def setLevelRange (num b lo hi : Nat) (v : Bool) (bits : List Bool) :
    Except Panic (List Bool) :=
  if lo ≤ hi ∧ hi ≤ bmLen num b then
    Except.ok (setRange bits (bitIdx num b lo) (hi - lo) v)
  else Except.error Panic.sliceOOB

/-- The lower-network loop `for b in 0..n`, which sets all level-`b` bits in
`[i << (n-b), (i+1) << (n-b))` to `v`.  `fuel` is the number of remaining
iterations (`n - b`); `set_network` starts it at `b = 0`, `fuel = n`. -/
def lowerNet (num n i : Nat) (v : Bool) : Nat → Nat → List Bool → Except Panic (List Bool)
  | _, 0, bits => Except.ok bits
  | b, fuel + 1, bits =>
    match setLevelRange num b (i * 2 ^ (n - b)) ((i + 1) * 2 ^ (n - b)) v bits with
    | Except.error e => Except.error e
    | Except.ok bits2 => lowerNet num n i v (b + 1) fuel bits2

/-- The higher-network loop `for b in n..self.num` in the `v == true` branch:
if `map[i >> (b-n)]` is already set, break; otherwise set it and continue.
`fuel` is the number of remaining iterations (`num - b`). -/
def higherTrue (num n i : Nat) : Nat → Nat → List Bool → Except Panic (List Bool)
  | _, 0, bits => Except.ok bits
  | b, fuel + 1, bits =>
    if i / 2 ^ (b - n) < bmLen num b then
      if bits.getD (bitIdx num b (i / 2 ^ (b - n))) false then Except.ok bits
      else higherTrue num n i (b + 1) fuel (bits.set (bitIdx num b (i / 2 ^ (b - n))) true)
    else Except.error Panic.sliceOOB

/-- The higher-network loop `for b in n..self.num` in the `v == false` branch:
clear `map[i >> (b-n)]` (a `set`, which panics out of bounds), then read the
sibling `map[(i >> (b-n)) ^ 1]` (panics out of bounds); if the sibling is set,
break, otherwise continue.  `fuel` is the number of remaining iterations. -/
def higherFalse (num n i : Nat) : Nat → Nat → List Bool → Except Panic (List Bool)
  | _, 0, bits => Except.ok bits
  | b, fuel + 1, bits =>
    if i / 2 ^ (b - n) < bmLen num b then
      if (i / 2 ^ (b - n)) ^^^ 1 < bmLen num b then
        if (bits.set (bitIdx num b (i / 2 ^ (b - n))) false).getD
            (bitIdx num b ((i / 2 ^ (b - n)) ^^^ 1)) false then
          Except.ok (bits.set (bitIdx num b (i / 2 ^ (b - n))) false)
        else
          higherFalse num n i (b + 1) fuel
            (bits.set (bitIdx num b (i / 2 ^ (b - n))) false)
      else Except.error Panic.sliceOOB
    else Except.error Panic.sliceOOB

/-- `set_network(n, i, v)`: assert `n < num` and `i < (1 << n)`, then run the
lower-network loop over levels `0..n` and the higher-network loop over levels
`n..num`. -/
def set_network (num n i : Nat) (v : Bool) (bits : List Bool) :
    Except Panic (List Bool) :=
  if n < num then
    if i < 2 ^ n then
      match lowerNet num n i v 0 n bits with
      | Except.error e => Except.error e
      | Except.ok bits2 =>
        if v then higherTrue num n i n (num - n) bits2
        else higherFalse num n i n (num - n) bits2
    else Except.error Panic.netAssert
  else Except.error Panic.sizeOutOfRange

/-- `can_allocate(n)`: assert `n < num`, then `self.buddymap_ref(n).any()`
(true iff some bit of the level-`n` sub-bitmap is set). -/
def can_allocate (num n : Nat) (bits : List Bool) : Except Panic Bool :=
  if n < num then Except.ok ((buddymap num n bits).any (fun s => s))
  else Except.error Panic.sizeOutOfRange

/-- `allocate(n)`: assert `n < num`; find
`self.buddymap_ref(n).iter().position(|s| s)` (the first set bit), returning
`None` if there is none; mark the network with `v = true`; return the block
index (the returned pointer is `data.add(pos << n)`). -/
def allocate (num n : Nat) (bits : List Bool) :
    Except Panic (Option (Nat × List Bool)) :=
  if n < num then
    match (buddymap num n bits).findIdx? (fun s => s) with
    | none => Except.ok none
    | some pos =>
      match set_network num n pos true bits with
      | Except.error e => Except.error e
      | Except.ok bits2 => Except.ok (some (pos, bits2))
  else Except.error Panic.sizeOutOfRange

/-- `free(n, pos)`: assert `n < num`, `pos < (1 << (num - n - 1))` and
`self.buddymap_ref(n)[pos]`; drop the data element in place (not modelled:
the allocator never reads `T`); clear the network with `v = false`. -/
def free (num n pos : Nat) (bits : List Bool) : Except Panic (List Bool) :=
  if n < num then
    if pos < 2 ^ (num - n - 1) then
      if (buddymap num n bits).getD pos false then
        set_network num n pos false bits
      else Except.error Panic.doubleFree
    else Except.error Panic.indexOutOfRange
  else Except.error Panic.sizeOutOfRange

/-- Reading position `j` of the level-`n` slice is reading absolute position
`bitIdx num n j` of the bit region. -/
theorem buddymap_getD (num n j : Nat) (bits : List Bool) (hj : j < bmLen num n) :
    (buddymap num n bits).getD j false = bits.getD (bitIdx num n j) false := by
  simp [buddymap, bitIdx, List.getD_eq_getElem?_getD, List.getElem?_take, hj,
    List.getElem?_drop]

/-- Claim C1: on a freshly constructed tree with an all-zero bit region
(`num = 3`, every size entirely free), the claim says `allocate(0)` returns
`Some(handle, 0)` and sets the three bits `(0,0)`, `(1,0)`, `(2,0)`.  The code
instead returns `None`: `allocate` scans for the first **set** bit
(`position(|s| s)`) and an all-zero bitmap has none. -/
theorem allocate_fresh_returns_none :
    allocate 3 0 (List.replicate 8 false) = Except.ok none := rfl

/-- Claim C2: the claim says `can_allocate(n)` is true iff the level-`n`
sub-bitmap has at least one `false` bit.  On the all-zero (fully free) bit
region the level-0 sub-bitmap consists of `false` bits, yet the code returns
`false` (`BitSlice::any()` is true iff some bit is **set**). -/
theorem can_allocate_inverted :
    can_allocate 3 0 (List.replicate 8 false) = Except.ok false
      ∧ (buddymap 3 0 (List.replicate 8 false)).any (fun s => !s) = true :=
  ⟨rfl, rfl⟩

/-- Claim C3: the claim says a successful `allocate(n)` returns the position
of the first `false` bit of the level-`n` sub-bitmap.  With `num = 2` and
level-0 sub-bitmap `[true, false]`, the code returns position `0` (the first
**set** bit) while the first `false` bit is at position `1`. -/
theorem allocate_picks_set_bit :
    allocate 2 0 [true, false, false, false]
        = Except.ok (some (0, [true, false, false, false]))
      ∧ (buddymap 2 0 [true, false, false, false]).findIdx? (fun s => !s) = some 1 :=
  ⟨rfl, rfl⟩

/-- Claim C4: the claim says simultaneously live allocations have disjoint
element ranges.  With `num = 2` and bit `(0,0)` set, `allocate(0)` returns
index `0` and leaves the bit region unchanged, so calling it again returns
index `0` again: two live allocations `(0,0)` and `(0,0)` whose element
ranges `[0*2^0, 1*2^0)` both contain element `0`. -/
theorem allocations_not_disjoint :
    allocate 2 0 [true, false, false, false]
        = Except.ok (some (0, [true, false, false, false]))
      ∧ ∃ k, k ∈ Finset.Ico (0 * 2 ^ 0) ((0 + 1) * 2 ^ 0)
          ∧ k ∈ Finset.Ico (0 * 2 ^ 0) ((0 + 1) * 2 ^ 0) :=
  ⟨rfl, 0, by decide, by decide⟩

/-- Claim C5: the claim says `allocate(n) = Some((h, i))` followed by
`free(n, i)` restores the bit region bit-identically.  With `num = 2` and bit
region `[true, true, false, false]`, `allocate(0)` returns `(0, unchanged)`
(the bit it picks is already set, so the higher network breaks immediately),
and the following `free(0, 0)` clears bit `(0,0)`, ending strictly below the
prior state. -/
theorem round_trip_fails :
    allocate 2 0 [true, true, false, false]
        = Except.ok (some (0, [true, true, false, false]))
      ∧ free 2 0 0 [true, true, false, false]
        = Except.ok [false, true, false, false]
      ∧ ([false, true, false, false] : List Bool) ≠ [true, true, false, false] :=
  ⟨rfl, rfl, by decide⟩

/-- Claim C6: the claim says `free(n, i)` completes without a fatal error
whenever `n < N`, `i < 2^(N-n-1)` and `Bit(n, i)` is true.  With `num = 3`,
`n = 0`, `i = 1` and bit `(0,1)` set, all three documented preconditions
hold, yet the code aborts on `set_network`'s internal `assert!(i < (1 << n))`
(`1 < 1` fails). -/
theorem free_aborts_within_contract :
    ((0:Nat) < 3 ∧ (1:Nat) < 2 ^ (3 - 0 - 1)
        ∧ (buddymap 3 0 [false, true, false, false, false, false, false, false]).getD 1 false
          = true)
      ∧ free 3 0 1 [false, true, false, false, false, false, false, false]
        = Except.error Panic.netAssert :=
  ⟨⟨by decide, by decide, by decide⟩, rfl⟩

/-- Claim C7: for `n < num` and any bit-region state, `can_allocate(n)`
returns `false` exactly when `allocate(n)` on the same state returns no
result.  Both sides reduce to "the level-`n` sub-bitmap has no set bit":
`can_allocate` is `BitSlice::any()` and `allocate` exits early exactly when
`position(|s| s)` finds nothing, so the two (identically inverted) scans
agree, and out-of-memory is an absent result rather than an error. -/
theorem can_allocate_false_iff_allocate_none (num n : Nat) (bits : List Bool)
    (h : n < num) :
    can_allocate num n bits = Except.ok false
      ↔ allocate num n bits = Except.ok none := by
  unfold can_allocate allocate
  rw [if_pos h, if_pos h]
  cases hf : (buddymap num n bits).findIdx? (fun s => s) with
  | none =>
    have hany : (buddymap num n bits).any (fun s => s) = false := by
      rw [List.any_eq_false]
      intro x hx
      have := List.findIdx?_eq_none_iff.mp hf x hx
      simp_all
    simp [hany]
  | some pos =>
    have hany : (buddymap num n bits).any (fun s => s) = true := by
      cases hval : (buddymap num n bits).any (fun s => s)
      · rw [List.any_eq_false] at hval
        have hnone : (buddymap num n bits).findIdx? (fun s => s) = none :=
          List.findIdx?_eq_none_iff.mpr (fun x hx => by simpa using hval x hx)
        rw [hf] at hnone
        cases hnone
      · rfl
    cases hsn : set_network num n pos true bits <;> simp [hany, hsn]

/-- Concrete instance of claim C7: `num = 1`, empty level-0 sub-bitmap. -/
theorem can_allocate_false_iff_allocate_none_witness :
    (0:Nat) < 1
      ∧ (can_allocate 1 0 [false, false] = Except.ok false
        ↔ allocate 1 0 [false, false] = Except.ok none) :=
  ⟨by decide, can_allocate_false_iff_allocate_none 1 0 [false, false] (by decide)⟩

/-- Claim C9: for `n < num` and a bit region of `2^num` bits, the level-`n`
sub-bitmap returned by `buddymap_ref` has length `2^(num-n-1)` and its bit
`j` is the bit-region bit `2^num - 2^(num-n) + j`, i.e. the sub-bitmap
occupies exactly the range `[2^num - 2^(num-n), 2^num - 2^(num-n-1))`. -/
theorem buddymap_layout (num n : Nat) (bits : List Bool) (h : n < num)
    (hlen : bits.length = 2 ^ num) :
    (buddymap num n bits).length = 2 ^ (num - n - 1)
      ∧ ∀ j, j < 2 ^ (num - n - 1) →
        (buddymap num n bits).getD j false
          = bits.getD (2 ^ num - 2 ^ (num - n) + j) false := by
  have h1 : 2 ^ (num - n) ≤ 2 ^ num := Nat.pow_le_pow_right (by norm_num) (by omega)
  have h2 : 2 ^ (num - n - 1) ≤ 2 ^ (num - n) :=
    Nat.pow_le_pow_right (by norm_num) (by omega)
  constructor
  · simp only [buddymap, List.length_take, List.length_drop, hlen, bmStart, bmLen]
    omega
  · intro j hj
    have hb := buddymap_getD num n j bits (by simpa [bmLen] using hj)
    simpa [bitIdx, bmStart] using hb

/-- Concrete instance of claim C9: `num = 2`, `n = 0`. -/
theorem buddymap_layout_witness :
    (buddymap 2 0 (List.replicate 4 false)).length = 2 ^ (2 - 0 - 1)
      ∧ ∀ j, j < 2 ^ (2 - 0 - 1) →
        (buddymap 2 0 (List.replicate 4 false)).getD j false
          = (List.replicate 4 false).getD (2 ^ 2 - 2 ^ (2 - 0) + j) false :=
  buddymap_layout 2 0 (List.replicate 4 false) (by decide) (by decide)

/-- Claim C10: for `n < num` and any index `i` with `2^n ≤ i < 2^(num-n-1)`
(an index the public contract of `free` declares valid), every call that
reaches `set_network` aborts on its assertion `i < (1 << n)`: `free(n, i)`
with `Bit(n, i)` set passes its own three asserts and then fails there, and
an `allocate(n)` whose scan selects position `i` fails there likewise. -/
theorem set_network_assert_aborts (num n i : Nat) (bits : List Bool)
    (h : n < num) (hge : 2 ^ n ≤ i) (hlt : i < 2 ^ (num - n - 1)) :
    ((buddymap num n bits).getD i false = true →
        free num n i bits = Except.error Panic.netAssert)
      ∧ ((buddymap num n bits).findIdx? (fun s => s) = some i →
        allocate num n bits = Except.error Panic.netAssert) := by
  have hni : ¬ i < 2 ^ n := by omega
  have hsnf : ∀ v : Bool, set_network num n i v bits = Except.error Panic.netAssert := by
    intro v
    unfold set_network
    rw [if_pos h, if_neg hni]
  constructor
  · intro hbit
    unfold free
    rw [if_pos h, if_pos hlt, if_pos hbit]
    exact hsnf false
  · intro hfind
    unfold allocate
    rw [if_pos h, hfind]
    simp [hsnf true]

/-- Concrete instance of claim C10: `num = 3`, `n = 0`, `i = 1`, bit `(0,1)`
set; both `free(0,1)` and `allocate(0)` abort on `set_network`'s assert. -/
theorem set_network_assert_aborts_witness :
    free 3 0 1 [false, true, false, false, false, false, false, false]
        = Except.error Panic.netAssert
      ∧ allocate 3 0 [false, true, false, false, false, false, false, false]
        = Except.error Panic.netAssert :=
  ⟨(set_network_assert_aborts 3 0 1
      [false, true, false, false, false, false, false, false]
      (by decide) (by decide) (by decide)).1 (by decide),
   (set_network_assert_aborts 3 0 1
      [false, true, false, false, false, false, false, false]
      (by decide) (by decide) (by decide)).2 (by decide)⟩

/-- Setting one bit leaves every other position unchanged. -/
theorem getD_set_ne' (l : List Bool) (q p : Nat) (a : Bool) (h : q ≠ p) :
    (l.set q a).getD p false = l.getD p false := by
  simp [List.getD_eq_getElem?_getD, List.getElem?_set_ne h]

/-- After clearing a bit, reading it back gives `false` (also when the index
is past the end, where the default is `false`). -/
theorem getD_set_false_self (l : List Bool) (q : Nat) :
    (l.set q false).getD q false = false := by
  by_cases hq : q < l.length
  · simp [List.getD_eq_getElem?_getD, List.getElem?_set_self hq]
  · rw [List.set_eq_of_length_le (by omega)]
    simp [List.getD_eq_getElem?_getD, List.getElem?_eq_none (by omega : l.length ≤ q)]

/-- `setRange` does not touch positions outside `[start, start + count)`. -/
theorem setRange_getD_out (v : Bool) :
    ∀ (count : Nat) (bits : List Bool) (start p : Nat),
      p < start ∨ start + count ≤ p →
      (setRange bits start count v).getD p false = bits.getD p false := by
  intro count
  induction count with
  | zero => intro bits start p _; rfl
  | succ k ih =>
    intro bits start p hp
    simp only [setRange]
    rw [ih (bits.set start v) (start + 1) p (by omega)]
    exact getD_set_ne' bits start p v (by omega)

/-- Sub-bitmap starts move right as the level grows. -/
theorem bmStart_mono (num : Nat) {b c : Nat} (h : b ≤ c) :
    bmStart num b ≤ bmStart num c := by
  have h1 : 2 ^ (num - c) ≤ 2 ^ (num - b) :=
    Nat.pow_le_pow_right (by norm_num) (by omega)
  unfold bmStart
  omega

/-- The level-`b` sub-bitmap ends at or before the start of any higher
level's sub-bitmap. -/
theorem region_end_le_start (num : Nat) {b c : Nat} (hbc : b < c) (hc : c ≤ num) :
    bmStart num b + bmLen num b ≤ bmStart num c := by
  have h2 : 2 ^ (num - b) = 2 ^ (num - b - 1) * 2 := by
    rw [← pow_succ]
    congr 1
    omega
  have h3 : 2 ^ (num - b) ≤ 2 ^ num :=
    Nat.pow_le_pow_right (by norm_num) (by omega)
  have h4 : 2 ^ (num - c) ≤ 2 ^ (num - b - 1) :=
    Nat.pow_le_pow_right (by norm_num) (by omega)
  unfold bmStart bmLen
  omega

/-- A successful `setLevelRange` records its bounds checks and result. -/
theorem setLevelRange_ok (num b lo hi : Nat) (v : Bool) (bits bits2 : List Bool)
    (hok : setLevelRange num b lo hi v bits = Except.ok bits2) :
    lo ≤ hi ∧ hi ≤ bmLen num b
      ∧ bits2 = setRange bits (bitIdx num b lo) (hi - lo) v := by
  unfold setLevelRange at hok
  split at hok
  · rename_i hcond
    exact ⟨hcond.1, hcond.2, (Except.ok.inj hok).symm⟩
  · exact Except.noConfusion hok

/-- The lower-network loop only writes levels `0..n`, so every bit-region
position at or past the start of the level-`n` sub-bitmap is unchanged. -/
theorem lowerNet_frame (num n i : Nat) (v : Bool) (hn : n ≤ num) :
    ∀ (fuel b : Nat), b + fuel ≤ n →
      ∀ (bits bits' : List Bool),
        lowerNet num n i v b fuel bits = Except.ok bits' →
        ∀ p, bmStart num n ≤ p → bits'.getD p false = bits.getD p false := by
  intro fuel
  induction fuel with
  | zero =>
    intro b _ bits bits' hok p _
    cases hok
    rfl
  | succ k ih =>
    intro b hb bits bits' hok p hp
    simp only [lowerNet] at hok
    cases hsl : setLevelRange num b (i * 2 ^ (n - b)) ((i + 1) * 2 ^ (n - b)) v bits with
    | error e =>
      rw [hsl] at hok
      exact Except.noConfusion hok
    | ok bits2 =>
      rw [hsl] at hok
      obtain ⟨hlohi, hhi, hb2⟩ := setLevelRange_ok num b _ _ v bits bits2 hsl
      have hrec := ih (b + 1) (by omega) bits2 bits' hok p hp
      rw [hrec, hb2]
      apply setRange_getD_out
      right
      have hreg := region_end_le_start num (show b < n by omega) hn
      unfold bitIdx
      omega

/-- Flipping the lowest bit changes the number. -/
theorem xor_one_ne (i : Nat) : i ^^^ 1 ≠ i := by
  intro h
  have h0 : (i ^^^ 1).testBit 0 = i.testBit 0 := by rw [h]
  have h1 : Nat.testBit 1 0 = true := rfl
  rw [Nat.testBit_xor, h1] at h0
  cases hb : i.testBit 0 <;> rw [hb] at h0 <;> simp at h0

/-- Claim C8: when `free(n, i)` completes and the level-`n` sibling bit
`Bit(n, i ^ 1)` was set (the buddy still in use), no bit at any level
strictly greater than `n` is modified: the upward walk clears `Bit(n, i)` and
stops at level `n` because the sibling is set. -/
theorem sibling_lock (num n i : Nat) (bits bits' : List Bool)
    (hsib : getBit num n (i ^^^ 1) bits = true)
    (hok : free num n i bits = Except.ok bits') :
    (∀ b j, n < b → b < num → j < bmLen num b →
        getBit num b j bits' = getBit num b j bits)
      ∧ getBit num n i bits' = false := by
  unfold free at hok
  split_ifs at hok with h1 h2 h3
  unfold set_network at hok
  rw [if_pos h1] at hok
  by_cases h4 : i < 2 ^ n
  case neg =>
    rw [if_neg h4] at hok
    exact Except.noConfusion hok
  rw [if_pos h4] at hok
  cases hlow : lowerNet num n i false 0 n bits with
  | error e =>
    rw [hlow] at hok
    exact Except.noConfusion hok
  | ok mid =>
    rw [hlow] at hok
    have hok2 : higherFalse num n i n (num - n) mid = Except.ok bits' := by
      have hred : (match Except.ok mid with
          | Except.error e => (Except.error e : Except Panic (List Bool))
          | Except.ok bits2 =>
            if (false : Bool) then higherTrue num n i n (num - n) bits2
            else higherFalse num n i n (num - n) bits2) = Except.ok bits' := hok
      simpa using hred
    clear hok
    have hfuel : num - n = (num - n - 1) + 1 := by omega
    rw [hfuel] at hok2
    simp only [higherFalse, Nat.sub_self, pow_zero, Nat.div_one] at hok2
    have hib : i < bmLen num n := h2
    rw [if_pos hib] at hok2
    by_cases hs1 : i ^^^ 1 < bmLen num n
    case neg =>
      rw [if_neg hs1] at hok2
      exact Except.noConfusion hok2
    rw [if_pos hs1] at hok2
    have hframe := lowerNet_frame num n i false (le_of_lt h1) n 0 (by omega) bits mid hlow
    have hne : bitIdx num n i ≠ bitIdx num n (i ^^^ 1) := by
      unfold bitIdx
      intro hcontra
      exact xor_one_ne i (by omega)
    have hsibval : (mid.set (bitIdx num n i) false).getD
        (bitIdx num n (i ^^^ 1)) false = true := by
      rw [getD_set_ne' mid (bitIdx num n i) (bitIdx num n (i ^^^ 1)) false hne]
      rw [hframe (bitIdx num n (i ^^^ 1)) (by unfold bitIdx; omega)]
      exact hsib
    rw [if_pos hsibval] at hok2
    have hb' : bits' = mid.set (bitIdx num n i) false := (Except.ok.inj hok2).symm
    subst hb'
    constructor
    · intro b j hnb hbnum hj
      have hreg := region_end_le_start num hnb (le_of_lt hbnum)
      have hmono := bmStart_mono num (le_of_lt hnb)
      have hne2 : bitIdx num n i ≠ bitIdx num b j := by
        unfold bitIdx at *
        omega
      unfold getBit
      rw [getD_set_ne' mid (bitIdx num n i) (bitIdx num b j) false hne2]
      exact hframe (bitIdx num b j) (by unfold bitIdx at *; omega)
    · exact getD_set_false_self mid (bitIdx num n i)

/-- Concrete instance of claim C8: `num = 2`, freeing `(0,0)` while its
sibling `(0,1)` is set stops at level 0 and leaves level 1 unchanged. -/
theorem sibling_lock_witness :
    (∀ b j, 0 < b → b < 2 → j < bmLen 2 b →
        getBit 2 b j [false, true, false, false] = getBit 2 b j [true, true, false, false])
      ∧ getBit 2 0 0 [false, true, false, false] = false :=
  sibling_lock 2 0 0 [true, true, false, false] [false, true, false, false]
    (by decide) rfl

end Buddies
